import Mathlib

/-!
Shallow embedding of the CAN log decoding core of `can_ui_tool.py`
(lines 40–112 of the source): tokenization of log lines, extended-identifier
decomposition, schema lookups, message-type branching, the FLYER fixed-layout
payload decoder, and the lift-side derivation.

Modelling conventions:
* pandas `DataFrame.loc[key, col]`, which raises `KeyError` on a missing
  index label, is modelled by an association-list lookup returning `Option`;
  a `none` anywhere inside the per-line `try` block makes the whole line
  produce `LineResult.dropped` (the outer `except` handler: warning, no record).
* `bytes.fromhex` is modelled by `hexDecode` (strict pairs of hex digits;
  the tokens fed to it contain no spaces).
* Python `float` arithmetic (`/ 100.0` on 16-bit integers) is modelled
  exactly in `ℚ`.
* Python `int(...)` on a token is modelled as an optional sign followed by
  one or more decimal digits.
* `str.lower()` is modelled character-wise with `Char.toLower` (the schema
  names in play are ASCII).
-/

/-- Machine type constants from the source (`CARDING = 1`, `DF = 2`, `FLYER = 3`). -/
inductive Machine where
  | CARDING
  | DF
  | FLYER
deriving DecidableEq

/-- The schema tables loaded from the DBC file, as association lists:
`functionIDs` (fID → msgType), the three variant address tables (code → name),
`Operations` (payload hex string → msgType) and `Errors` (integer → msgType). -/
structure Schema where
  functionIDs : List (String × String)
  CardingAddressIDs : List (String × String)
  DFAddressIDs : List (String × String)
  FlyerAddressIDs : List (String × String)
  Operations : List (String × String)
  Errors : List (Int × String)
deriving DecidableEq

/-- `table.loc[key, col]` as an optional lookup (string-keyed tables). -/
def lookup? (t : List (String × String)) (k : String) : Option String :=
  (t.find? (fun p => p.1 == k)).map Prod.snd

/-- `Errors.loc[key, col]` as an optional lookup (integer-keyed table). -/
def elookup? (t : List (Int × String)) (k : Int) : Option String :=
  (t.find? (fun p => p.1 == k)).map Prod.snd

/-- Helper for `splitSpace`: accumulates the current token (reversed). -/
def splitSpaceAux : List Char → List Char → List String
  | [], acc => [⟨acc.reverse⟩]
  | c :: rest, acc =>
      if c = ' ' then ⟨acc.reverse⟩ :: splitSpaceAux rest []
      else splitSpaceAux rest (c :: acc)

/-- Python `line.split(" ")`: splits on each single space character, keeping
empty tokens for consecutive spaces; tabs and other whitespace do not split. -/
def splitSpace (line : String) : List String :=
  splitSpaceAux line.toList []

/-- Python `extID[-2:]` from the source (`source = extID[-2:]`). -/
def extSource (s : String) : String :=
  ⟨s.toList.drop (s.toList.length - 2)⟩

/-- Python `extID[-4:-2]` from the source (`dst = extID[-4:-2]`). -/
def extDst (s : String) : String :=
  ⟨(s.toList.take (s.toList.length - 2)).drop (s.toList.length - 4)⟩

/-- Python `extID[-6:-4]` from the source (`fID = extID[-6:-4]`). -/
def extFID (s : String) : String :=
  ⟨(s.toList.take (s.toList.length - 4)).drop (s.toList.length - 6)⟩

/-- The last `n` characters of a string (used to state suffix invariance). -/
def lastChars (s : String) (n : Nat) : String :=
  ⟨s.toList.drop (s.toList.length - n)⟩

/-- Value of one hex digit: `0`–`9` (codes 48–57), `a`–`f` (97–102),
`A`–`F` (65–70). -/
def hexDigit? (c : Char) : Option Nat :=
  if 48 ≤ c.toNat ∧ c.toNat ≤ 57 then some (c.toNat - 48)
  else if 97 ≤ c.toNat ∧ c.toNat ≤ 102 then some (c.toNat - 87)
  else if 65 ≤ c.toNat ∧ c.toNat ≤ 70 then some (c.toNat - 55)
  else none

/-- Consumes hex digits two at a time; fails on an odd tail or a non-hex
character (the `ValueError` of `bytes.fromhex`). -/
def hexPairs : List Char → Option (List Nat)
  | [] => some []
  | [_] => none
  | a :: b :: rest => do
      let x ← hexDigit? a
      let y ← hexDigit? b
      let t ← hexPairs rest
      pure ((16 * x + y) :: t)

/-- Python `bytes.fromhex(hexData)` on a space-free token. -/
def hexDecode (s : String) : Option (List Nat) :=
  hexPairs s.toList

/-- Value of a nonempty all-digit character list, else `none`. -/
def digitsVal? (cs : List Char) : Option Nat :=
  if cs.isEmpty then none
  else if cs.all Char.isDigit then
    some (cs.foldl (fun a c => a * 10 + (c.toNat - 48)) 0)
  else none

/-- Python `int(str(hexData))`: optional sign then decimal digits
(`ValueError` modelled as `none`). -/
def pyInt? (s : String) : Option Int :=
  match s.toList with
  | '+' :: rest => (digitsVal? rest).map Int.ofNat
  | '-' :: rest => (digitsVal? rest).map (fun n => -(n : Int))
  | cs => (digitsVal? cs).map Int.ofNat

/-- The twelve FLYER payload signals attached by the decode block
(lines 80–93 of the source); scaled positions are exact rationals. -/
structure Signals where
  targetPosition : ℚ
  presentPosition : ℚ
  presentRPM : ℕ
  appliedDuty : ℕ
  FETtemp : ℕ
  MOTtemp : ℕ
  busCurrentADC : ℕ
  busVoltageADC : ℕ
  liftDirection : ℕ
  GBPresentPosition : ℚ
  encPresentPosition : ℚ
  usingPosition : ℕ
deriving DecidableEq

/-- `(data_bytes[i] << 8) | data_bytes[i+1]` from the source. -/
def be16 (bs : List Nat) (i : Nat) : Nat :=
  ((bs.getD i 0) <<< 8) ||| bs.getD (i + 1) 0

/-- The FLYER payload decode block applied to the decoded bytes. -/
def decodeSignals (bs : List Nat) : Signals where
  targetPosition := (be16 bs 0 : ℚ) / 100
  presentPosition := (be16 bs 2 : ℚ) / 100
  presentRPM := be16 bs 4
  appliedDuty := be16 bs 6
  FETtemp := bs.getD 8 0
  MOTtemp := bs.getD 9 0
  busCurrentADC := be16 bs 10
  busVoltageADC := be16 bs 12
  liftDirection := bs.getD 14 0
  GBPresentPosition := (be16 bs 15 : ℚ) / 100
  encPresentPosition := (be16 bs 17 : ℚ) / 100
  usingPosition := bs.getD 19 0

/-- Python `s.lower()` (ASCII names). -/
def strLower (s : String) : String :=
  ⟨s.toList.map Char.toLower⟩

/-- Whether `needle` occurs contiguously inside `hay`. -/
def hasSubSeq (needle : List Char) : List Char → Bool
  | [] => needle.isEmpty
  | c :: rest => needle.isPrefixOf (c :: rest) || hasSubSeq needle rest

/-- Python `needle in hay` on strings (substring containment). -/
def strContains (hay needle : String) : Bool :=
  hasSubSeq needle.toList hay.toList

/-- The lift-side derivation (lines 95–103 of the source): the dict `get`
calls with default `""` are modelled by `Option.getD`. -/
def liftSideOf (srcName dstName : Option String) : String :=
  let s := strLower (srcName.getD "")
  let d := strLower (dstName.getD "")
  if strContains s "right" || strContains d "right" then "Right Lift"
  else if strContains s "left" || strContains d "left" then "Left Lift"
  else "Unknown Lift"

/-- One decoded record (`linedict` at the moment it is appended): the header
fields and resolved names are always present in an emitted record, the
branch/payload fields optional. -/
structure Record where
  date : String
  time : String
  extID : String
  hexData : String
  msgType : String
  source : String
  dst : String
  OperationCommand : Option String
  ErrorCommand : Option String
  signals : Option Signals
  LiftSide : Option String
deriving DecidableEq

/-- The `Operation` / `Error` branch (lines 72–75): returns the optional
`OperationCommand` and `ErrorCommand` fields, or `none` when a raised
`KeyError` / `ValueError` aborts the line. -/
def branchFields (sch : Schema) (msgType hexData : String) :
    Option (Option String × Option String) :=
  if msgType = "Operation" then
    match lookup? sch.Operations hexData with
    | some v => some (some v, none)
    | none => none
  else if msgType = "Error" then
    match pyInt? hexData with
    | none => none
    | some n =>
        match elookup? sch.Errors n with
        | some v => some (none, some v)
        | none => none
  else some (none, none)

/-- The variant address table chosen at line 63 of the source. -/
def addressTable (sch : Schema) : Machine → List (String × String)
  | Machine.CARDING => sch.CardingAddressIDs
  | Machine.DF => sch.DFAddressIDs
  | Machine.FLYER => sch.FlyerAddressIDs

/-- The FLYER payload stage (lines 77–106): entered only for the FLYER
machine with `len(hexData) >= 40`; a failing `bytes.fromhex` is caught by
the inner `except` (flag `true` = a flyer decoding warning was shown) and
the record is still emitted. -/
def flyerStage (m : Machine) (base : Record) : Record × Bool :=
  if m = Machine.FLYER ∧ 40 ≤ base.hexData.toList.length then
    match hexDecode base.hexData with
    | some bs =>
        ({ base with
            signals := some (decodeSignals bs)
            LiftSide := some (liftSideOf (some base.source) (some base.dst)) },
          false)
    | none => (base, true)
  else (base, false)

/-- Outcome of one raw line: not a receive line (`ignored`), aborted by the
outer `except` handler (`dropped`, a warning and no record), or `emitted`
with the flyer-warning flag. -/
inductive LineResult where
  | ignored
  | dropped
  | emitted (r : Record) (flyerWarning : Bool)
deriving DecidableEq

/-- Body of the per-line `try` block (lines 45–108) on the space-split
tokens: any `IndexError` from a missing token or `KeyError`/`ValueError`
from a lookup yields `none` (the line is dropped). -/
def buildRecord (sch : Schema) (m : Machine) (splits : List String) :
    Option (Record × Bool) :=
  match splits.get? 0, splits.get? 1, splits.get? 3, splits.get? 4 with
  | some t0, some t1, some extID, some hexData =>
      match lookup? sch.functionIDs (extFID extID) with
      | none => none
      | some msgType =>
          match lookup? (addressTable sch m) (extSource extID),
                lookup? (addressTable sch m) (extDst extID) with
          | some sourceName, some dstName =>
              match branchFields sch msgType hexData with
              | none => none
              | some (oc, ec) =>
                  some (flyerStage m
                    { date := t0.drop 1
                      time := t1.take (t1.length - 1)
                      extID := extID
                      hexData := hexData
                      msgType := msgType
                      source := sourceName
                      dst := dstName
                      OperationCommand := oc
                      ErrorCommand := ec
                      signals := none
                      LiftSide := none })
          | _, _ => none
  | _, _, _, _ => none

/-- Processing of one raw line (lines 41–110): split on single spaces,
check for the receive marker `rcv`, then run the `try` body. -/
def processLine (sch : Schema) (m : Machine) (line : String) : LineResult :=
  let splits := splitSpace line
  if "rcv" ∈ splits then
    match buildRecord sch m splits with
    | some (r, w) => LineResult.emitted r w
    | none => LineResult.dropped
  else LineResult.ignored

/-- The whole-log pass: records of emitted lines in input order (`allDicts`). -/
def processLog (sch : Schema) (m : Machine) (lines : List String) : List Record :=
  lines.filterMap (fun l =>
    match processLine sch m l with
    | LineResult.emitted r _ => some r
    | _ => none)

/-- The emitted record of a line result, if any. -/
def emittedOf : LineResult → Option Record
  | LineResult.emitted r _ => some r
  | _ => none

/-- Whether a line result carried a flyer decoding warning. -/
def flyerWarned : LineResult → Bool
  | LineResult.emitted _ w => w
  | _ => false

/-- Helper for `specWhitespaceTokens`: split at every whitespace character. -/
def wsSplitAux : List Char → List Char → List String
  | [], acc => [⟨acc.reverse⟩]
  | c :: rest, acc =>
      if c.isWhitespace then ⟨acc.reverse⟩ :: wsSplitAux rest []
      else wsSplitAux rest (c :: acc)

/-- The spec's tokenizer wording, for comparison with `splitSpace`: split on
whitespace (runs of whitespace produce no empty tokens), as Python
`line.split()` with no argument. -/
def specWhitespaceTokens (line : String) : List String :=
  (wsSplitAux line.toList []).filter (fun t => ¬ t.isEmpty)

/-! ### Concrete fixtures used by witnesses and counterexamples -/

/-- A small concrete schema in the shape the DBC file provides. -/
def schX : Schema where
  functionIDs := [("01", "Telemetry"), ("02", "Error"), ("03", "Operation")]
  CardingAddressIDs := [("02", "Controller"), ("03", "Right Motor")]
  DFAddressIDs := [("02", "Controller"), ("03", "Right Motor")]
  FlyerAddressIDs := [("02", "Controller"), ("03", "Right Motor"), ("04", "left_sensor")]
  Operations := [("05", "Start")]
  Errors := [(7, "Overheat")]

/-- A receive line with a full 40-hex-character (20-byte) payload. -/
def lineA : String :=
  "(2024-01-01 12:00:00) rcv 0x010203 0102030405060708090A0B0C0D0E0F1011121314"

/-- A receive line whose function code `FF` is absent from the schema. -/
def lineB : String := "(d t) rcv 0xFF0203 00"

/-- A receive line of `Error` message type whose payload `0A` is not a
base-10 integer string. -/
def lineC : String := "(d t) rcv 0x020203 0A"

/-- A receive line with a 10-hex-character (5-byte) payload. -/
def lineD : String := "(d t) rcv 0x010203 0102030405"

/-- A receive line with a 40-character payload that is not valid hex. -/
def lineE : String := "(d t) rcv 0x010203 zz02030405060708090A0B0C0D0E0F1011121314"

/-- A line whose receive marker is separated by a tab, not a space. -/
def lineF : String := "x\trcv a b c d"

/-- A receive line whose destination code `09` is absent from the schema. -/
def lineG : String := "(d t) rcv 0x010903 00"

/-- A receive line with only three tokens. -/
def lineH : String := "a rcv b"

/-- A receive line whose extended identifier has only five characters. -/
def lineS : String := "(d t) rcv 01234 00"

/-- The byte list decoded from `lineA`'s payload. -/
def bsA : List Nat :=
  [1, 2, 3, 4, 5, 6, 7, 8, 9, 10, 11, 12, 13, 14, 15, 16, 17, 18, 19, 20]

/-- The record emitted for `lineA` on the FLYER machine. -/
def recA : Record :=
  match processLine schX Machine.FLYER lineA with
  | LineResult.emitted r _ => r
  | _ => ⟨"", "", "", "", "", "", "", none, none, none, none⟩

/-- The record emitted for `lineA` on the CARDING machine. -/
def recAc : Record :=
  match processLine schX Machine.CARDING lineA with
  | LineResult.emitted r _ => r
  | _ => ⟨"", "", "", "", "", "", "", none, none, none, none⟩

/-- The record emitted for the short-payload `lineD` on the FLYER machine. -/
def recD : Record :=
  match processLine schX Machine.FLYER lineD with
  | LineResult.emitted r _ => r
  | _ => ⟨"", "", "", "", "", "", "", none, none, none, none⟩

/-- The record emitted for the bad-hex `lineE` on the FLYER machine. -/
def recE : Record :=
  match processLine schX Machine.FLYER lineE with
  | LineResult.emitted r _ => r
  | _ => ⟨"", "", "", "", "", "", "", none, none, none, none⟩

/-! ### Supporting lemmas -/

theorem hexDigit?_lt {c : Char} {x : Nat} (h : hexDigit? c = some x) : x < 16 := by
  unfold hexDigit? at h
  split at h
  next h1 => cases h; omega
  next h1 =>
    split at h
    next h2 => cases h; omega
    next h2 =>
      split at h
      next h3 => cases h; omega
      next h3 => cases h

theorem hexPairs_lt : ∀ (cs : List Char) (bs : List Nat), hexPairs cs = some bs →
    ∀ b ∈ bs, b < 256
  | [], bs, h => by
      cases h
      intro b hb
      cases hb
  | [_], bs, h => by cases h
  | a :: c :: rest, bs, h => by
      simp only [hexPairs, Option.bind_eq_bind, Option.bind_eq_some, Option.pure_def,
        Option.some.injEq] at h
      obtain ⟨x, hx, y, hy, t, ht, rfl⟩ := h
      intro b hb
      rcases List.mem_cons.mp hb with rfl | hmem
      · have := hexDigit?_lt hx
        have := hexDigit?_lt hy
        omega
      · exact hexPairs_lt rest t ht b hmem

theorem hexDecode_lt {s : String} {bs : List Nat} (h : hexDecode s = some bs) :
    ∀ b ∈ bs, b < 256 :=
  hexPairs_lt s.toList bs h

theorem getD_lt_256 {bs : List Nat} (h : ∀ b ∈ bs, b < 256) (i : Nat) :
    bs.getD i 0 < 256 := by
  rw [List.getD_eq_getElem?_getD]
  cases hg : bs[i]? with
  | none => simp
  | some v => simpa using h v (List.getElem?_mem hg)

theorem be16_eq {bs : List Nat} {i : Nat} (h : bs.getD (i + 1) 0 < 256) :
    be16 bs i = bs.getD i 0 * 256 + bs.getD (i + 1) 0 := by
  have e : (2 : ℕ) ^ 8 = 256 := by norm_num
  have h2 : bs.getD (i + 1) 0 < 2 ^ 8 := by rw [e]; exact h
  have hco := (Nat.mul_add_lt_is_or h2 (bs.getD i 0)).symm
  unfold be16
  rw [Nat.shiftLeft_eq, Nat.mul_comm, hco, e, Nat.mul_comm]

theorem be16_le {bs : List Nat} (h : ∀ b ∈ bs, b < 256) (i : Nat) :
    be16 bs i ≤ 65535 := by
  rw [be16_eq (getD_lt_256 h (i + 1))]
  have h1 := getD_lt_256 h i
  have h2 := getD_lt_256 h (i + 1)
  omega

theorem processLine_eq_emitted {sch : Schema} {m : Machine} {line : String}
    {r : Record} {w : Bool}
    (h : processLine sch m line = LineResult.emitted r w) :
    "rcv" ∈ splitSpace line ∧ buildRecord sch m (splitSpace line) = some (r, w) := by
  simp only [processLine] at h
  by_cases hm : "rcv" ∈ splitSpace line
  · refine ⟨hm, ?_⟩
    rw [if_pos hm] at h
    cases hb : buildRecord sch m (splitSpace line) with
    | none => rw [hb] at h; cases h
    | some p =>
        rw [hb] at h
        cases p with
        | mk r' w' =>
            injection h with h1 h2
            rw [← h1, ← h2]
  · rw [if_neg hm] at h
    cases h

theorem processLine_eq_dropped_of_none {sch : Schema} {m : Machine} {line : String}
    (hm : "rcv" ∈ splitSpace line)
    (hb : buildRecord sch m (splitSpace line) = none) :
    processLine sch m line = LineResult.dropped := by
  simp only [processLine]
  rw [if_pos hm, hb]

theorem buildRecord_eq_some {sch : Schema} {m : Machine} {splits : List String}
    {r : Record} {w : Bool} (h : buildRecord sch m splits = some (r, w)) :
    ∃ t0 t1 extID hexData msgType sourceName dstName oc ec,
      splits.get? 0 = some t0 ∧ splits.get? 1 = some t1 ∧
      splits.get? 3 = some extID ∧ splits.get? 4 = some hexData ∧
      lookup? sch.functionIDs (extFID extID) = some msgType ∧
      lookup? (addressTable sch m) (extSource extID) = some sourceName ∧
      lookup? (addressTable sch m) (extDst extID) = some dstName ∧
      branchFields sch msgType hexData = some (oc, ec) ∧
      (r, w) = flyerStage m
        { date := t0.drop 1
          time := t1.take (t1.length - 1)
          extID := extID
          hexData := hexData
          msgType := msgType
          source := sourceName
          dst := dstName
          OperationCommand := oc
          ErrorCommand := ec
          signals := none
          LiftSide := none } := by
  unfold buildRecord at h
  split at h
  case _ t0 t1 extID hexData h0 h1 h3 h4 =>
    split at h
    case _ => cases h
    case _ msgType hfun =>
      split at h
      case _ sourceName dstName hsrc hdst =>
        split at h
        case _ => cases h
        case _ oc ec hbr =>
          exact ⟨t0, t1, extID, hexData, msgType, sourceName, dstName, oc, ec,
            h0, h1, h3, h4, hfun, hsrc, hdst, hbr, (Option.some.inj h).symm⟩
      case _ => cases h
  case _ => cases h

theorem flyerStage_fst_hexData (m : Machine) (b : Record) :
    ((flyerStage m b).1).hexData = b.hexData := by
  unfold flyerStage
  split
  · split <;> rfl
  · rfl

theorem flyerStage_fst_header (m : Machine) (b : Record) :
    ((flyerStage m b).1).date = b.date ∧ ((flyerStage m b).1).time = b.time ∧
    ((flyerStage m b).1).extID = b.extID ∧ ((flyerStage m b).1).hexData = b.hexData := by
  unfold flyerStage
  split
  · split <;> exact ⟨rfl, rfl, rfl, rfl⟩
  · exact ⟨rfl, rfl, rfl, rfl⟩

theorem flyerStage_decode {b : Record} {bs : List Nat}
    (hlen : 40 ≤ b.hexData.toList.length) (hdec : hexDecode b.hexData = some bs) :
    flyerStage Machine.FLYER b =
      ({ b with signals := some (decodeSignals bs),
                LiftSide := some (liftSideOf (some b.source) (some b.dst)) }, false) := by
  unfold flyerStage
  rw [if_pos ⟨rfl, hlen⟩, hdec]

theorem flyerStage_noDecode {b : Record}
    (hlen : 40 ≤ b.hexData.toList.length) (hdec : hexDecode b.hexData = none) :
    flyerStage Machine.FLYER b = (b, true) := by
  unfold flyerStage
  rw [if_pos ⟨rfl, hlen⟩, hdec]

theorem flyerStage_skip {m : Machine} {b : Record}
    (h : ¬(m = Machine.FLYER ∧ 40 ≤ b.hexData.toList.length)) :
    flyerStage m b = (b, false) := by
  unfold flyerStage
  rw [if_neg h]

theorem buildRecord_none_token4 {sch : Schema} {m : Machine} {splits : List String}
    (h4 : splits.get? 4 = none) : buildRecord sch m splits = none := by
  unfold buildRecord
  split
  case _ t0 t1 extID hexData h0 h1 h3 h4' => rw [h4] at h4'; cases h4'
  case _ => rfl

theorem buildRecord_none_of_lookup {sch : Schema} {m : Machine} {splits : List String}
    {extID : String} (h3 : splits.get? 3 = some extID)
    (hnone : lookup? sch.functionIDs (extFID extID) = none ∨
             lookup? (addressTable sch m) (extSource extID) = none ∨
             lookup? (addressTable sch m) (extDst extID) = none) :
    buildRecord sch m splits = none := by
  unfold buildRecord
  split
  case _ t0 t1 extID' hexData h0 h1 h3' h4 =>
    have hE : extID' = extID := by
      rw [h3] at h3'
      exact (Option.some.inj h3').symm
    subst hE
    rcases hnone with hf | hs | hd
    · rw [hf]
    · split
      case _ => rfl
      case _ => split <;> simp_all
    · split
      case _ => rfl
      case _ => split <;> simp_all
  case _ => rfl

theorem buildRecord_none_branch {sch : Schema} {m : Machine} {splits : List String}
    {extID hexData : String} (h3 : splits.get? 3 = some extID)
    (h4 : splits.get? 4 = some hexData)
    (hbr : ∀ msgType, lookup? sch.functionIDs (extFID extID) = some msgType →
             branchFields sch msgType hexData = none) :
    buildRecord sch m splits = none := by
  unfold buildRecord
  split
  case _ t0 t1 extID' hexData' h0 h1 h3' h4' =>
    have hE : extID' = extID := by
      rw [h3] at h3'
      exact (Option.some.inj h3').symm
    have hH : hexData' = hexData := by
      rw [h4] at h4'
      exact (Option.some.inj h4').symm
    subst hE; subst hH
    split
    case _ => rfl
    case _ msgType hfun =>
      split
      case _ s d hs' hd' => rw [hbr msgType hfun]
      case _ => rfl
  case _ => rfl

theorem extSource_eq (s : String) :
    extSource s = ⟨(s.toList.drop (s.toList.length - 2)).take 2⟩ := by
  unfold extSource
  congr 1
  rw [List.take_of_length_le]
  simp
  omega

theorem extDst_of_ge {s : String} (h : 6 ≤ s.toList.length) :
    extDst s = ⟨(s.toList.drop (s.toList.length - 4)).take 2⟩ := by
  unfold extDst
  congr 1
  have e : s.toList.length - 4 + 2 = s.toList.length - 2 := by omega
  rw [List.take_drop, e]

theorem extFID_of_ge {s : String} (h : 6 ≤ s.toList.length) :
    extFID s = ⟨(s.toList.drop (s.toList.length - 6)).take 2⟩ := by
  unfold extFID
  congr 1
  have e : s.toList.length - 6 + 2 = s.toList.length - 4 := by omega
  rw [List.take_drop, e]

theorem extFID_short {s : String} (h : s.toList.length < 6) :
    (extFID s).toList.length ≤ 1 := by
  show ((s.toList.take (s.toList.length - 4)).drop (s.toList.length - 6)).length ≤ 1
  simp only [List.length_drop, List.length_take]
  omega

theorem lookup?_eq_none_of_keylen {t : List (String × String)} {k : String}
    (hkeys : ∀ p ∈ t, (p.1).toList.length = 2) (hk : k.toList.length ≠ 2) :
    lookup? t k = none := by
  unfold lookup?
  rw [List.find?_eq_none.mpr]
  · rfl
  · intro p hp
    simp only [beq_iff_eq]
    intro hcontra
    exact hk (by rw [← hcontra]; exact hkeys p hp)

theorem hasSubSeq_iff (needle hay : List Char) :
    hasSubSeq needle hay = true ↔ needle <:+: hay := by
  induction hay with
  | nil => simp [hasSubSeq]
  | cons c rest ih =>
      simp [hasSubSeq, List.infix_cons_iff, ih, Bool.or_eq_true]

theorem strContains_iff (hay needle : String) :
    strContains hay needle = true ↔ needle.toList <:+: hay.toList := by
  unfold strContains
  exact hasSubSeq_iff _ _

/-- C1: for every FLYER record whose payload token has at least 40 hex
characters and decodes as hex to at least 20 bytes `b`, the payload decoder
attaches exactly the twelve signals `targetPosition = (b0*256+b1)/100.0`,
`presentPosition = (b2*256+b3)/100.0`, `presentRPM = b4*256+b5`,
`appliedDuty = b6*256+b7`, `FETtemp = b8`, `MOTtemp = b9`,
`busCurrentADC = b10*256+b11`, `busVoltageADC = b12*256+b13`,
`liftDirection = b14`, `GBPresentPosition = (b15*256+b16)/100.0`,
`encPresentPosition = (b17*256+b18)/100.0`, `usingPosition = b19`,
all multi-byte fields read as big-endian 16-bit values. -/
theorem C1_flyer_payload_signals {sch : Schema} {line : String}
    {r : Record} {w : Bool} {bs : List Nat}
    (hres : processLine sch Machine.FLYER line = LineResult.emitted r w)
    (hlen : 40 ≤ r.hexData.toList.length)
    (hdec : hexDecode r.hexData = some bs)
    (hbs : 20 ≤ bs.length) :
    r.signals = some
      { targetPosition := ((bs.getD 0 0 * 256 + bs.getD 1 0 : ℕ) : ℚ) / 100
        presentPosition := ((bs.getD 2 0 * 256 + bs.getD 3 0 : ℕ) : ℚ) / 100
        presentRPM := bs.getD 4 0 * 256 + bs.getD 5 0
        appliedDuty := bs.getD 6 0 * 256 + bs.getD 7 0
        FETtemp := bs.getD 8 0
        MOTtemp := bs.getD 9 0
        busCurrentADC := bs.getD 10 0 * 256 + bs.getD 11 0
        busVoltageADC := bs.getD 12 0 * 256 + bs.getD 13 0
        liftDirection := bs.getD 14 0
        GBPresentPosition := ((bs.getD 15 0 * 256 + bs.getD 16 0 : ℕ) : ℚ) / 100
        encPresentPosition := ((bs.getD 17 0 * 256 + bs.getD 18 0 : ℕ) : ℚ) / 100
        usingPosition := bs.getD 19 0 } := by
  obtain ⟨hm, hb⟩ := processLine_eq_emitted hres
  obtain ⟨t0, t1, extID, hexData, msgType, sourceName, dstName, oc, ec,
    h0, h1, h3, h4, hfun, hsrc, hdst, hbr, heq⟩ := buildRecord_eq_some hb
  have hhex : r.hexData = hexData := by
    have hpr := congrArg (fun p => (Prod.fst p).hexData) heq
    simpa [flyerStage_fst_hexData] using hpr
  rw [hhex] at hlen hdec
  have hb256 := hexDecode_lt hdec
  rw [flyerStage_decode hlen hdec] at heq
  have hr := congrArg Prod.fst heq
  simp only at hr
  rw [hr]
  show some (decodeSignals bs) = _
  have e0 := be16_eq (i := 0) (getD_lt_256 hb256 1)
  have e2 := be16_eq (i := 2) (getD_lt_256 hb256 3)
  have e4 := be16_eq (i := 4) (getD_lt_256 hb256 5)
  have e6 := be16_eq (i := 6) (getD_lt_256 hb256 7)
  have e10 := be16_eq (i := 10) (getD_lt_256 hb256 11)
  have e12 := be16_eq (i := 12) (getD_lt_256 hb256 13)
  have e15 := be16_eq (i := 15) (getD_lt_256 hb256 16)
  have e17 := be16_eq (i := 17) (getD_lt_256 hb256 18)
  simp [decodeSignals, e0, e2, e4, e6, e10, e12, e15, e17]

/-- C1 witness: on the concrete schema `schX` and 20-byte line `lineA`, the
emitted FLYER record carries exactly the claimed signal values. -/
theorem C1_flyer_payload_signals_witness :
    recA.signals = some
      { targetPosition := (258 : ℚ) / 100
        presentPosition := (772 : ℚ) / 100
        presentRPM := 1286
        appliedDuty := 1800
        FETtemp := 9
        MOTtemp := 10
        busCurrentADC := 2828
        busVoltageADC := 3342
        liftDirection := 15
        GBPresentPosition := (4113 : ℚ) / 100
        encPresentPosition := (4627 : ℚ) / 100
        usingPosition := 20 } := by
  have h := @C1_flyer_payload_signals schX lineA recA false bsA
    rfl (by decide) (by decide) (by decide)
  rw [h]
  norm_num [bsA]

/-- C2 counterexample: `lineB` is a well-formed candidate receive line (five
tokens, marker present) whose function code `FF` is absent from the schema;
contrary to the claim, no record is emitted for it at all — the `KeyError`
from the lookup is caught by the per-line handler and the record is dropped. -/
theorem C2_counterexample_unknown_code_drops :
    "rcv" ∈ splitSpace lineB ∧ (splitSpace lineB).length = 5 ∧
    lookup? schX.functionIDs (extFID "0xFF0203") = none ∧
    processLine schX Machine.CARDING lineB = LineResult.dropped := by
  refine ⟨by decide, by decide, by decide, by decide⟩

/-- C2 amended: a function/source/destination code absent from the schema
tables makes the pandas lookup raise `KeyError`, which the per-line handler
catches: the whole record is dropped (no record is emitted for that line),
while other lines are unaffected. -/
theorem C2_unknown_code_line_dropped {sch : Schema} {m : Machine} {line : String}
    {extID : String}
    (hm : "rcv" ∈ splitSpace line)
    (h3 : (splitSpace line).get? 3 = some extID)
    (hnone : lookup? sch.functionIDs (extFID extID) = none ∨
             lookup? (addressTable sch m) (extSource extID) = none ∨
             lookup? (addressTable sch m) (extDst extID) = none) :
    processLine sch m line = LineResult.dropped :=
  processLine_eq_dropped_of_none hm (buildRecord_none_of_lookup h3 hnone)

/-- C2 witness: `lineG`'s destination code `09` is unknown, so the line is
dropped on the concrete schema. -/
theorem C2_unknown_code_line_dropped_witness :
    processLine schX Machine.CARDING lineG = LineResult.dropped :=
  @C2_unknown_code_line_dropped schX Machine.CARDING lineG "0x010903"
    (by decide) (by decide) (Or.inr (Or.inr (by decide)))

/-- C3: on a schema whose function-table keys are 2-character codes, a
candidate receive line whose extended identifier has fewer than 6 characters
is dropped (contributes no record); for identifiers of length at least 6 the
function code is characters −6..−4, the destination code characters −4..−2,
and the source code the last 2 characters. -/
theorem C3_short_identifier {sch : Schema} {m : Machine} {line extID : String}
    (hkeys : ∀ p ∈ sch.functionIDs, (p.1).toList.length = 2)
    (hm : "rcv" ∈ splitSpace line)
    (h3 : (splitSpace line).get? 3 = some extID) :
    (extID.toList.length < 6 → processLine sch m line = LineResult.dropped) ∧
    (6 ≤ extID.toList.length →
      extFID extID = ⟨(extID.toList.drop (extID.toList.length - 6)).take 2⟩ ∧
      extDst extID = ⟨(extID.toList.drop (extID.toList.length - 4)).take 2⟩ ∧
      extSource extID = ⟨(extID.toList.drop (extID.toList.length - 2)).take 2⟩) := by
  constructor
  · intro hshort
    have hf : lookup? sch.functionIDs (extFID extID) = none :=
      lookup?_eq_none_of_keylen hkeys (by have := extFID_short hshort; omega)
    exact processLine_eq_dropped_of_none hm (buildRecord_none_of_lookup h3 (Or.inl hf))
  · intro hge
    exact ⟨extFID_of_ge hge, extDst_of_ge hge, extSource_eq extID⟩

/-- C3 witness: the five-character identifier of `lineS` drops the line on the
concrete schema, and the codes of `0x010203` are `01` / `02` / `03`. -/
theorem C3_short_identifier_witness :
    processLine schX Machine.CARDING lineS = LineResult.dropped ∧
    extFID "0x010203" = "01" ∧ extDst "0x010203" = "02" ∧
    extSource "0x010203" = "03" := by
  have h1 := (@C3_short_identifier schX Machine.CARDING lineS "01234"
      (by decide) (by decide) (by decide)).1 (by decide)
  have h2 := (@C3_short_identifier schX Machine.CARDING lineA "0x010203"
      (by decide) (by decide) (by decide)).2 (by decide)
  refine ⟨h1, ?_, ?_, ?_⟩
  · rw [h2.1]; decide
  · rw [h2.2.1]; decide
  · rw [h2.2.2]; decide

/-- C4 counterexample: `lineC` resolves to message type `Error` and its
payload token `0A` is not a base-10 integer string; contrary to the claim the
record is not emitted with its header fields — the `ValueError` escapes to
the per-line handler and the whole record is dropped. -/
theorem C4_counterexample_error_branch_drops :
    lookup? schX.functionIDs (extFID "0x020203") = some "Error" ∧
    pyInt? "0A" = none ∧
    processLine schX Machine.CARDING lineC = LineResult.dropped :=
  ⟨by decide, by decide, by decide⟩

/-- C4 amended: when the resolved message type is `Error` and the payload
token is not a valid base-10 integer string, the parse error propagates to
the per-line handler and the whole record is dropped (no record emitted). -/
theorem C4_error_nonint_line_dropped {sch : Schema} {m : Machine}
    {line extID hexData : String}
    (hm : "rcv" ∈ splitSpace line)
    (h3 : (splitSpace line).get? 3 = some extID)
    (h4 : (splitSpace line).get? 4 = some hexData)
    (hfun : lookup? sch.functionIDs (extFID extID) = some "Error")
    (hint : pyInt? hexData = none) :
    processLine sch m line = LineResult.dropped := by
  apply processLine_eq_dropped_of_none hm
  apply buildRecord_none_branch h3 h4
  intro msgType hmsg
  have hE : msgType = "Error" := by
    rw [hfun] at hmsg
    exact (Option.some.inj hmsg).symm
  subst hE
  unfold branchFields
  rw [if_neg (by decide), if_pos rfl, hint]

/-- C4 witness: the amended behavior on the concrete line `lineC`. -/
theorem C4_error_nonint_line_dropped_witness :
    processLine schX Machine.CARDING lineC = LineResult.dropped :=
  @C4_error_nonint_line_dropped schX Machine.CARDING lineC "0x020203" "0A"
    (by decide) (by decide) (by decide) (by decide) (by decide)

theorem buildRecord_eq_some_base {sch : Schema} {m : Machine} {splits : List String}
    {r : Record} {w : Bool} (h : buildRecord sch m splits = some (r, w)) :
    ∃ base extID hexData,
      splits.get? 3 = some extID ∧ splits.get? 4 = some hexData ∧
      base.hexData = hexData ∧ base.signals = none ∧ base.LiftSide = none ∧
      (r, w) = flyerStage m base := by
  obtain ⟨t0, t1, extID, hexData, msgType, sourceName, dstName, oc, ec,
    h0, h1, h3, h4, hfun, hsrc, hdst, hbr, heq⟩ := buildRecord_eq_some h
  exact ⟨_, extID, hexData, h3, h4, rfl, rfl, rfl, heq⟩

theorem flyerStage_liftSide_signals (m : Machine) (b : Record)
    (hs : b.signals = none) (hl : b.LiftSide = none) :
    (((flyerStage m b).1).LiftSide.isSome ↔ ((flyerStage m b).1).signals.isSome) ∧
    (m ≠ Machine.FLYER → ((flyerStage m b).1).LiftSide = none) := by
  unfold flyerStage
  split
  case _ hc =>
    split
    case _ bs hdec => exact ⟨by simp, fun hne => absurd hc.1 hne⟩
    case _ hdec => exact ⟨by simp [hs, hl], fun _ => hl⟩
  case _ hc => exact ⟨by simp [hs, hl], fun _ => hl⟩

/-- C5 counterexample: on the CARDING machine, `lineA` resolves both
identifiers (source `Right Motor`) and is emitted, yet carries no category
tag — contrary to the claim that the tag is computed for every emitted
record with resolved identifiers, regardless of variant. -/
theorem C5_counterexample_no_category_tag :
    (emittedOf (processLine schX Machine.CARDING lineA)).map Record.source =
      some "Right Motor" ∧
    (emittedOf (processLine schX Machine.CARDING lineA)).map Record.dst =
      some "Controller" ∧
    (emittedOf (processLine schX Machine.CARDING lineA)).map Record.LiftSide =
      some none :=
  ⟨by decide, by decide, by decide⟩

/-- C5 amended: the category tag is attached exactly when payload signals are
attached — that is, only on the FLYER variant with a successfully decoded
40-hex-character payload; on any other variant the emitted record never
carries a category tag. -/
theorem C5_category_tag_only_flyer {sch : Schema} {m : Machine} {line : String}
    {r : Record} {w : Bool}
    (h : processLine sch m line = LineResult.emitted r w) :
    (r.LiftSide.isSome ↔ r.signals.isSome) ∧
    (m ≠ Machine.FLYER → r.LiftSide = none) := by
  obtain ⟨hm, hb⟩ := processLine_eq_emitted h
  obtain ⟨base, extID, hexData, h3, h4, hbh, hbs, hbl, heq⟩ :=
    buildRecord_eq_some_base hb
  have hr := congrArg Prod.fst heq
  simp only at hr
  rw [hr]
  exact flyerStage_liftSide_signals m base hbs hbl

/-- C5 witness: `lineA` on CARDING is emitted with no category tag, and on
FLYER the tag is present exactly when signals are. -/
theorem C5_category_tag_only_flyer_witness :
    ((recAc.LiftSide.isSome ↔ recAc.signals.isSome) ∧
      (Machine.CARDING ≠ Machine.FLYER → recAc.LiftSide = none)) ∧
    (recA.LiftSide.isSome ↔ recA.signals.isSome) :=
  ⟨@C5_category_tag_only_flyer schX Machine.CARDING lineA recAc false rfl,
    (@C5_category_tag_only_flyer schX Machine.FLYER lineA recA false rfl).1⟩

/-- C6 counterexample: the 10-hex-character (5-byte) payload of `lineD` on the
FLYER machine yields an emitted header-only record with no signals, but —
contrary to the claim — no warning is recorded for the line: the decode
branch is skipped entirely. -/
theorem C6_counterexample_short_payload_no_warning :
    (emittedOf (processLine schX Machine.FLYER lineD)).map Record.hexData =
      some "0102030405" ∧
    (emittedOf (processLine schX Machine.FLYER lineD)).map Record.signals =
      some none ∧
    flyerWarned (processLine schX Machine.FLYER lineD) = false :=
  ⟨by decide, by decide, by decide⟩

/-- C6 amended: a FLYER payload token shorter than 40 hex characters skips
the decode branch silently — the record keeps its header fields, gets no
signals, and no warning is recorded; a token of at least 40 characters that
fails hex decoding keeps the header fields, gets no signals, and does record
a warning. -/
theorem C6_flyer_payload_failure {sch : Schema} {line : String}
    {r : Record} {w : Bool}
    (h : processLine sch Machine.FLYER line = LineResult.emitted r w) :
    (r.hexData.toList.length < 40 → r.signals = none ∧ w = false) ∧
    (40 ≤ r.hexData.toList.length → hexDecode r.hexData = none →
      r.signals = none ∧ w = true) := by
  obtain ⟨hm, hb⟩ := processLine_eq_emitted h
  obtain ⟨base, extID, hexData, h3, h4, hbh, hbs, hbl, heq⟩ :=
    buildRecord_eq_some_base hb
  have hrh : r.hexData = base.hexData := by
    have hpr := congrArg (fun p => (Prod.fst p).hexData) heq
    simpa [flyerStage_fst_hexData] using hpr
  constructor
  · intro hshort
    rw [hrh] at hshort
    have hneg : ¬(Machine.FLYER = Machine.FLYER ∧
        40 ≤ base.hexData.toList.length) := by
      intro hc
      omega
    rw [flyerStage_skip hneg] at heq
    have h1 := congrArg (fun p => (Prod.fst p).signals) heq
    have h2 := congrArg Prod.snd heq
    simp only at h1 h2
    exact ⟨h1.trans hbs, h2⟩
  · intro hlen hdec
    rw [hrh] at hlen hdec
    rw [flyerStage_noDecode hlen hdec] at heq
    have h1 := congrArg (fun p => (Prod.fst p).signals) heq
    have h2 := congrArg Prod.snd heq
    simp only at h1 h2
    exact ⟨h1.trans hbs, h2⟩

/-- C6 witness: the short-payload line `lineD` is emitted unsignalled and
unwarned; the 40-character bad-hex line `lineE` is emitted unsignalled with
a warning. -/
theorem C6_flyer_payload_failure_witness :
    recD.signals = none ∧ recE.signals = none ∧
    flyerWarned (processLine schX Machine.FLYER lineD) = false ∧
    flyerWarned (processLine schX Machine.FLYER lineE) = true := by
  have h1 := (@C6_flyer_payload_failure schX lineD recD false rfl).1 (by decide)
  have h2 := (@C6_flyer_payload_failure schX lineE recE true rfl).2
    (by decide) (by decide)
  exact ⟨h1.1, h2.1, by decide, by decide⟩

theorem getD_of_get? {l : List String} {i : Nat} {v : String}
    (h : l.get? i = some v) : l.getD i "" = v := by
  rw [List.getD_eq_getElem?_getD, ← List.get?_eq_getElem?, h]
  rfl

/-- C7 counterexample: on `lineF` the receive marker is preceded by a tab,
so splitting on whitespace (the claim's tokenizer) yields an `rcv` token,
yet the code — which splits on single spaces only — silently ignores the
line. -/
theorem C7_counterexample_whitespace_split :
    "rcv" ∈ specWhitespaceTokens lineF ∧
    "rcv" ∉ splitSpace lineF ∧
    processLine schX Machine.CARDING lineF = LineResult.ignored :=
  ⟨by decide, by decide, by decide⟩

/-- C7 amended: the tokenizer splits on the single space character
(consecutive spaces give empty tokens; tabs do not split); a line is
processed only if some token equals `rcv`, otherwise it is silently ignored;
for emitted records the date is token 0 with its first character stripped,
the time token 1 with its last character stripped, the extended identifier
token 3, the payload token 4; a candidate line with fewer than 5 tokens is
dropped with a warning and does not affect subsequent lines. -/
theorem C7_tokenizer_behavior (sch : Schema) (m : Machine) (line : String) :
    ("rcv" ∉ splitSpace line → processLine sch m line = LineResult.ignored) ∧
    ("rcv" ∈ splitSpace line → (splitSpace line).length < 5 →
      processLine sch m line = LineResult.dropped) ∧
    (∀ r w, processLine sch m line = LineResult.emitted r w →
      r.date = ((splitSpace line).getD 0 "").drop 1 ∧
      r.time = ((splitSpace line).getD 1 "").take
        (((splitSpace line).getD 1 "").length - 1) ∧
      r.extID = (splitSpace line).getD 3 "" ∧
      r.hexData = (splitSpace line).getD 4 "") ∧
    (processLine sch m line = LineResult.dropped →
      ∀ rest, processLog sch m (line :: rest) = processLog sch m rest) := by
  refine ⟨?_, ?_, ?_, ?_⟩
  · intro hm
    simp only [processLine]
    rw [if_neg hm]
  · intro hm hlen
    refine processLine_eq_dropped_of_none hm (buildRecord_none_token4 ?_)
    rw [List.get?_eq_none]
    omega
  · intro r w hres
    obtain ⟨hm, hb⟩ := processLine_eq_emitted hres
    obtain ⟨t0, t1, extID, hexData, msgType, sourceName, dstName, oc, ec,
      h0, h1, h3, h4, hfun, hsrc, hdst, hbr, heq⟩ := buildRecord_eq_some hb
    rw [getD_of_get? h0, getD_of_get? h1, getD_of_get? h3, getD_of_get? h4]
    have hrd := congrArg (fun p => (Prod.fst p).date) heq
    have hrt := congrArg (fun p => (Prod.fst p).time) heq
    have hre := congrArg (fun p => (Prod.fst p).extID) heq
    have hrh := congrArg (fun p => (Prod.fst p).hexData) heq
    simp only at hrd hrt hre hrh
    obtain ⟨hd, ht, he, hh⟩ := flyerStage_fst_header m
      { date := t0.drop 1
        time := t1.take (t1.length - 1)
        extID := extID
        hexData := hexData
        msgType := msgType
        source := sourceName
        dst := dstName
        OperationCommand := oc
        ErrorCommand := ec
        signals := none
        LiftSide := none }
    exact ⟨hrd.trans hd, hrt.trans ht, hre.trans he, hrh.trans hh⟩
  · intro hdrop rest
    simp [processLog, hdrop]

/-- C7 witness: the tab line is ignored, a three-token candidate line is
dropped, `lineA`'s emitted record carries the stripped tokens, and a dropped
line leaves the rest of the log unaffected. -/
theorem C7_tokenizer_behavior_witness :
    processLine schX Machine.CARDING lineF = LineResult.ignored ∧
    processLine schX Machine.CARDING lineH = LineResult.dropped ∧
    (recA.date = ((splitSpace lineA).getD 0 "").drop 1 ∧
     recA.time = ((splitSpace lineA).getD 1 "").take
        (((splitSpace lineA).getD 1 "").length - 1) ∧
     recA.extID = (splitSpace lineA).getD 3 "" ∧
     recA.hexData = (splitSpace lineA).getD 4 "") ∧
    processLog schX Machine.FLYER (lineH :: [lineA]) =
      processLog schX Machine.FLYER [lineA] := by
  refine ⟨?_, ?_, ?_, ?_⟩
  · exact (C7_tokenizer_behavior schX Machine.CARDING lineF).1 (by decide)
  · exact (C7_tokenizer_behavior schX Machine.CARDING lineH).2.1 (by decide)
      (by decide)
  · exact (C7_tokenizer_behavior schX Machine.FLYER lineA).2.2.1 recA false rfl
  · exact (C7_tokenizer_behavior schX Machine.FLYER lineH).2.2.2 (by decide)
      [lineA]

/-- C8: the category derivation lower-cases source and destination names
(absent treated as the empty string), tests containment of `right` across
source-or-destination first, then `left`, first match winning; no match
yields `Unknown Lift`. -/
theorem C8_category_derivation (srcName dstName : Option String) :
    (("right".toList <:+: (strLower (srcName.getD "")).toList ∨
      "right".toList <:+: (strLower (dstName.getD "")).toList) →
      liftSideOf srcName dstName = "Right Lift") ∧
    (¬("right".toList <:+: (strLower (srcName.getD "")).toList ∨
       "right".toList <:+: (strLower (dstName.getD "")).toList) →
      ("left".toList <:+: (strLower (srcName.getD "")).toList ∨
       "left".toList <:+: (strLower (dstName.getD "")).toList) →
      liftSideOf srcName dstName = "Left Lift") ∧
    (¬("right".toList <:+: (strLower (srcName.getD "")).toList ∨
       "right".toList <:+: (strLower (dstName.getD "")).toList) →
     ¬("left".toList <:+: (strLower (srcName.getD "")).toList ∨
       "left".toList <:+: (strLower (dstName.getD "")).toList) →
      liftSideOf srcName dstName = "Unknown Lift") := by
  have hr : (strContains (strLower (srcName.getD "")) "right" ||
        strContains (strLower (dstName.getD "")) "right") = true ↔
      ("right".toList <:+: (strLower (srcName.getD "")).toList ∨
       "right".toList <:+: (strLower (dstName.getD "")).toList) := by
    rw [Bool.or_eq_true, strContains_iff, strContains_iff]
  have hl : (strContains (strLower (srcName.getD "")) "left" ||
        strContains (strLower (dstName.getD "")) "left") = true ↔
      ("left".toList <:+: (strLower (srcName.getD "")).toList ∨
       "left".toList <:+: (strLower (dstName.getD "")).toList) := by
    rw [Bool.or_eq_true, strContains_iff, strContains_iff]
  refine ⟨?_, ?_, ?_⟩
  · intro h
    simp only [liftSideOf]
    rw [if_pos (hr.mpr h)]
  · intro hnr hleft
    simp only [liftSideOf]
    rw [if_neg (fun hc => hnr (hr.mp hc)), if_pos (hl.mpr hleft)]
  · intro hnr hnl
    simp only [liftSideOf]
    rw [if_neg (fun hc => hnr (hr.mp hc)), if_neg (fun hc => hnl (hl.mp hc))]

/-- C8 witness: the spec's three examples, via the derivation theorem. -/
theorem C8_category_derivation_witness :
    liftSideOf (some "Right Motor") (some "Controller") = "Right Lift" ∧
    liftSideOf (some "left_sensor") none = "Left Lift" ∧
    liftSideOf none none = "Unknown Lift" :=
  ⟨(C8_category_derivation (some "Right Motor") (some "Controller")).1
      (by decide),
   (C8_category_derivation (some "left_sensor") none).2.1 (by decide)
      (by decide),
   (C8_category_derivation none none).2.2 (by decide) (by decide)⟩

theorem extFID_eq_lastChars {s : String} (h : 6 ≤ s.toList.length) :
    extFID s = ⟨(lastChars s 6).toList.take 2⟩ :=
  extFID_of_ge h

theorem extDst_eq_lastChars {s : String} (h : 6 ≤ s.toList.length) :
    extDst s = ⟨((lastChars s 6).toList.drop 2).take 2⟩ := by
  rw [extDst_of_ge h]
  congr 1
  show (s.toList.drop (s.toList.length - 4)).take 2 =
    ((s.toList.drop (s.toList.length - 6)).drop 2).take 2
  rw [List.drop_drop]
  congr 2
  omega

theorem extSource_eq_lastChars {s : String} (h : 6 ≤ s.toList.length) :
    extSource s = ⟨(lastChars s 6).toList.drop 4⟩ := by
  unfold extSource
  congr 1
  show s.toList.drop (s.toList.length - 2) =
    (s.toList.drop (s.toList.length - 6)).drop 4
  rw [List.drop_drop]
  congr 1
  omega

/-- C9: two extended identifiers of length at least 6 that agree on their
last 6 characters decompose to identical function, destination, and source
codes — characters before the last 6 never matter. -/
theorem C9_suffix_invariance {e₁ e₂ : String}
    (h₁ : 6 ≤ e₁.toList.length) (h₂ : 6 ≤ e₂.toList.length)
    (h : lastChars e₁ 6 = lastChars e₂ 6) :
    extFID e₁ = extFID e₂ ∧ extDst e₁ = extDst e₂ ∧
    extSource e₁ = extSource e₂ := by
  refine ⟨?_, ?_, ?_⟩
  · rw [extFID_eq_lastChars h₁, extFID_eq_lastChars h₂, h]
  · rw [extDst_eq_lastChars h₁, extDst_eq_lastChars h₂, h]
  · rw [extSource_eq_lastChars h₁, extSource_eq_lastChars h₂, h]

/-- C9 witness: prepending `ff` to `010203` changes no extracted code. -/
theorem C9_suffix_invariance_witness :
    extFID "ff010203" = extFID "010203" ∧
    extDst "ff010203" = extDst "010203" ∧
    extSource "ff010203" = extSource "010203" :=
  C9_suffix_invariance (by decide) (by decide) (by decide)

/-- C10: every decoded payload signal is unsigned and bounded — raw bytes in
[0, 255], 16-bit fields in [0, 65535], scaled positions in [0, 655.35]; no
two's-complement interpretation is applied anywhere. -/
theorem C10_signal_bounds {s : String} {bs : List Nat}
    (h : hexDecode s = some bs) :
    (decodeSignals bs).FETtemp ≤ 255 ∧
    (decodeSignals bs).MOTtemp ≤ 255 ∧
    (decodeSignals bs).liftDirection ≤ 255 ∧
    (decodeSignals bs).usingPosition ≤ 255 ∧
    (decodeSignals bs).presentRPM ≤ 65535 ∧
    (decodeSignals bs).appliedDuty ≤ 65535 ∧
    (decodeSignals bs).busCurrentADC ≤ 65535 ∧
    (decodeSignals bs).busVoltageADC ≤ 65535 ∧
    (0 ≤ (decodeSignals bs).targetPosition ∧
      (decodeSignals bs).targetPosition ≤ 655.35) ∧
    (0 ≤ (decodeSignals bs).presentPosition ∧
      (decodeSignals bs).presentPosition ≤ 655.35) ∧
    (0 ≤ (decodeSignals bs).GBPresentPosition ∧
      (decodeSignals bs).GBPresentPosition ≤ 655.35) ∧
    (0 ≤ (decodeSignals bs).encPresentPosition ∧
      (decodeSignals bs).encPresentPosition ≤ 655.35) := by
  have hb := hexDecode_lt h
  have hbyte : ∀ i, bs.getD i 0 < 256 := getD_lt_256 hb
  have h16 : ∀ i, be16 bs i ≤ 65535 := be16_le hb
  have hq : ∀ i, 0 ≤ ((be16 bs i : ℕ) : ℚ) / 100 ∧
      ((be16 bs i : ℕ) : ℚ) / 100 ≤ 655.35 := by
    intro i
    constructor
    · positivity
    · rw [show (655.35 : ℚ) = 65535 / 100 by norm_num]
      have hc : ((be16 bs i : ℕ) : ℚ) ≤ 65535 := by exact_mod_cast h16 i
      gcongr
  refine ⟨?_, ?_, ?_, ?_, ?_, ?_, ?_, ?_, hq 0, hq 2, hq 15, hq 17⟩
  · show bs.getD 8 0 ≤ 255
    have := hbyte 8
    omega
  · show bs.getD 9 0 ≤ 255
    have := hbyte 9
    omega
  · show bs.getD 14 0 ≤ 255
    have := hbyte 14
    omega
  · show bs.getD 19 0 ≤ 255
    have := hbyte 19
    omega
  · exact h16 4
  · exact h16 6
  · exact h16 10
  · exact h16 12

/-- C10 witness: the bounds hold for the concrete 20-byte payload of
`lineA`. -/
theorem C10_signal_bounds_witness :
    (decodeSignals bsA).FETtemp ≤ 255 ∧
    (decodeSignals bsA).MOTtemp ≤ 255 ∧
    (decodeSignals bsA).liftDirection ≤ 255 ∧
    (decodeSignals bsA).usingPosition ≤ 255 ∧
    (decodeSignals bsA).presentRPM ≤ 65535 ∧
    (decodeSignals bsA).appliedDuty ≤ 65535 ∧
    (decodeSignals bsA).busCurrentADC ≤ 65535 ∧
    (decodeSignals bsA).busVoltageADC ≤ 65535 ∧
    (0 ≤ (decodeSignals bsA).targetPosition ∧
      (decodeSignals bsA).targetPosition ≤ 655.35) ∧
    (0 ≤ (decodeSignals bsA).presentPosition ∧
      (decodeSignals bsA).presentPosition ≤ 655.35) ∧
    (0 ≤ (decodeSignals bsA).GBPresentPosition ∧
      (decodeSignals bsA).GBPresentPosition ≤ 655.35) ∧
    (0 ≤ (decodeSignals bsA).encPresentPosition ∧
      (decodeSignals bsA).encPresentPosition ≤ 655.35) :=
  C10_signal_bounds (s := "0102030405060708090A0B0C0D0E0F1011121314")
    (by decide)
